import Mathlib

/-!
Shallow embedding of the gossip-driven block-production subsystem of the
btcvm repository: the gossip item wrapper and codec (vm/gossip_wrapper.go,
vm/gossip.go), the unified dedup set (vm/gossip.go), the gossip
configuration (vm/gossip_item.go), the block builder scheduler
(block_builder source file), and the snowman block adapter
(vm/block_adapter.go).

Machine integers and durations are modelled as Int (nanoseconds, the unit
of Go's time.Duration); Go's float64 configuration fields are modelled as
rationals, which is order-faithful for the comparisons against 0 and 1
that the code performs; Go's fallible calls return Except; the external
ledger-engine capabilities (mempool, chain) are passed in as an explicit
oracle record, since the embedded engine is an external collaborator of
this subsystem.
-/

namespace BtcVM

/-- Bitcoin chainhash.Hash, modelled by its numeric value. -/
abbrev Hash := Nat

/-- Avalanche ids.ID, modelled by its numeric value. -/
abbrev ID := Nat

/-- ids.Empty: the all-zero identifier. -/
def idsEmpty : ID := 0

/-- Modelled from the spec: a btcutil.Tx is identified with its canonical
wire encoding (the byte string its BtcEncode produces); the wire package
of the repository is not among the staged files, and the spec fixes the
payload encoding as the ledger engine's canonical wire encoding. -/
abbrev Tx := List Nat

/-- Modelled from the spec: a btcutil.Block, identified with its canonical
wire encoding, as for Tx. -/
abbrev Block := List Nat

/-- Modelled from the spec: the content hash of a payload, a pure function
of the payload bytes (double-SHA256 in the original; any fixed function of
the bytes is faithful for the identity laws proved here). -/
def bytesHash (l : List Nat) : Nat := l.foldl (fun acc b => acc * 257 + b + 1) 1

/-- btcutil.Tx.Hash: the transaction's content hash. -/
def txHash (t : Tx) : Hash := bytesHash t

/-- btcutil.Block.Hash: the block's content hash. -/
def blockHash (b : Block) : Hash := bytesHash b

/-- hashToID of vm/gossip_wrapper.go: converts a (possibly nil) chainhash
pointer to an ids.ID, returning ids.Empty on nil. -/
def hashToID : Option Hash → ID
  | none => idsEmpty
  | some h => h

/-- GossipItemTypeTx of vm/gossip_item.go (byte 0x01). -/
def GossipItemTypeTx : Nat := 1

/-- GossipItemTypeBlock of vm/gossip_item.go (byte 0x02). -/
def GossipItemTypeBlock : Nat := 2

/-- BTCGossip of vm/gossip_wrapper.go: the tagged wrapper. The Go nil
pointers become none. The tag is a raw byte, so unknown tags are
representable, as in Go. -/
structure BTCGossip where
  ItemType : Nat
  Tx : Option Tx
  Block : Option Block
deriving DecidableEq

/-- BTCGossip.GossipID of vm/gossip_wrapper.go: switch on the tag, hash of
the payload when present, ids.Empty in all remaining cases. -/
def BTCGossip.GossipID (g : BTCGossip) : ID :=
  if g.ItemType = GossipItemTypeTx then
    match g.Tx with
    | some tx => hashToID (some (txHash tx))
    | none => idsEmpty
  else if g.ItemType = GossipItemTypeBlock then
    match g.Block with
    | some b => hashToID (some (blockHash b))
    | none => idsEmpty
  else idsEmpty

/-- Modelled from the spec: MsgTx.BtcEncode's output, the transaction's
canonical wire byte string (the Tx model is that byte string itself). -/
def msgTxEncode (t : Tx) : List Nat := t

/-- Modelled from the spec: MsgBlock.BtcEncode's output. -/
def msgBlockEncode (b : Block) : List Nat := b

/-- Modelled from the spec: MsgTx.BtcDecode on a canonical byte string
recovers the transaction it encodes. -/
def msgTxDecode (l : List Nat) : Except String Tx := .ok l

/-- Modelled from the spec: MsgBlock.BtcDecode on a canonical byte string
recovers the block it encodes. -/
def msgBlockDecode (l : List Nat) : Except String Block := .ok l

/-- BTCGossipMarshaller.MarshalGossip of vm/gossip.go: one-byte kind
discriminator, then the payload's wire encoding; errors on a nil payload
or an unknown kind tag. -/
def MarshalGossip (item : BTCGossip) : Except String (List Nat) :=
  if item.ItemType = GossipItemTypeTx then
    match item.Tx with
    | none => .error "nil transaction in gossip item"
    | some tx => .ok (item.ItemType :: msgTxEncode tx)
  else if item.ItemType = GossipItemTypeBlock then
    match item.Block with
    | none => .error "nil block in gossip item"
    | some b => .ok (item.ItemType :: msgBlockEncode b)
  else .error "unknown gossip item type"

/-- BTCGossipMarshaller.UnmarshalGossip of vm/gossip.go: reads the
discriminator byte and dispatches to the matching payload decoder; errors
on empty input or an unknown discriminator. -/
def UnmarshalGossip (data : List Nat) : Except String BTCGossip :=
  match data with
  | [] => .error "empty gossip data"
  | t :: rest =>
    if t = GossipItemTypeTx then
      match msgTxDecode rest with
      | .error e => .error e
      | .ok tx => .ok ⟨GossipItemTypeTx, some tx, none⟩
    else if t = GossipItemTypeBlock then
      match msgBlockDecode rest with
      | .error e => .error e
      | .ok b => .ok ⟨GossipItemTypeBlock, none, some b⟩
    else .error "unknown gossip item type"

/-- The outcomes of the ledger-engine capabilities that UnifiedBTCSet.Add
consults, passed in explicitly: the mempool membership test, the result
ProcessTransaction would produce, the result HaveBlock would produce, the
result ProcessBlock would produce, and whether the OnTxRelay callback is
installed. The engine itself is an external collaborator of this
subsystem (its mempool and chain packages are consumed via this
capability interface). -/
structure EngineOracle where
  mempoolHas : Hash → Bool
  processTransaction : Tx → Except String (List Tx)
  haveBlock : Hash → Except String Bool
  processBlock : Block → Except String (Bool × Bool)
  onTxRelaySet : Bool

/-- The observable outcome of one UnifiedBTCSet.Add call: the bloom filter
contents afterwards, the transactions handed to OnTxRelay, the payload ids
submitted to the engine's processing pipeline during the call, and the
returned error value. -/
structure AddOutcome where
  bloom : List ID
  relayed : List Tx
  submitted : List ID
  result : Except String Unit

/-- gossip.BloomFilter.Add: marks the item's GossipID as known. -/
def bloomAdd (bloom : List ID) (item : BTCGossip) : List ID :=
  item.GossipID :: bloom

/-- UnifiedBTCSet.Add of vm/gossip.go. For a transaction: an already-known
transaction is marked in the filter and accepted without reprocessing; a
ProcessTransaction failure is returned as the error, without marking the
filter; a success marks the filter and relays the newly accepted
transactions when the OnTxRelay callback is installed. For a block: a
HaveBlock error is returned; an already-known block is marked and
accepted; otherwise the block goes through ProcessBlock and its failure is
logged and swallowed, the filter being marked and success returned in
either case. An unknown tag or a nil payload is an error. -/
def Add (eng : EngineOracle) (bloom : List ID) (item : BTCGossip) : AddOutcome :=
  if item.ItemType = GossipItemTypeTx then
    match item.Tx with
    | none => ⟨bloom, [], [], .error "nil transaction in gossip item"⟩
    | some tx =>
      let h := txHash tx
      if eng.mempoolHas h then
        ⟨bloomAdd bloom item, [], [], .ok ()⟩
      else
        match eng.processTransaction tx with
        | .error e => ⟨bloom, [], [hashToID (some h)], .error e⟩
        | .ok acceptedTxs =>
          ⟨bloomAdd bloom item,
           if acceptedTxs.length > 0 ∧ eng.onTxRelaySet then acceptedTxs else [],
           [hashToID (some h)], .ok ()⟩
  else if item.ItemType = GossipItemTypeBlock then
    match item.Block with
    | none => ⟨bloom, [], [], .error "nil block in gossip item"⟩
    | some blk =>
      let h := blockHash blk
      match eng.haveBlock h with
      | .error e => ⟨bloom, [], [], .error e⟩
      | .ok true => ⟨bloomAdd bloom item, [], [], .ok ()⟩
      | .ok false =>
        match eng.processBlock blk with
        | .error _ => ⟨bloomAdd bloom item, [], [hashToID (some h)], .ok ()⟩
        | .ok _ => ⟨bloomAdd bloom item, [], [hashToID (some h)], .ok ()⟩
  else ⟨bloom, [], [], .error "unknown gossip item type"⟩

/-- The Tx gossip wrapper that UnifiedBTCSet.Iterate builds for each
mempool descriptor. -/
def txGossip (t : Tx) : BTCGossip := ⟨GossipItemTypeTx, some t, none⟩

/-- UnifiedBTCSet.Iterate of vm/gossip.go, observed through the trace of
items handed to the callback: mempool transactions wrapped as Tx items, in
order, stopping right after the first item on which the callback returns
false; blocks are deliberately not iterated. -/
def Iterate : List Tx → (BTCGossip → Bool) → List BTCGossip
  | [], _ => []
  | t :: ts, f =>
    let item := txGossip t
    if f item then item :: Iterate ts f else [item]

/-- GossipConfig of vm/gossip_item.go. The float64 fields become
rationals; the time.Duration fields become Int nanoseconds. -/
structure GossipConfig where
  PushGossipPercentStake : ℚ
  PushGossipNumValidators : Int
  PushGossipNumPeers : Int
  PushGossipFrequency : Int
  PullGossipFrequency : Int
  PushRegossipNumValidators : Int
  PushRegossipNumPeers : Int
  RegossipFrequency : Int
  BloomFilterSize : Int
  BloomFalsePositiveRate : ℚ
  BloomResetThreshold : ℚ

/-- One millisecond in nanoseconds (Go time.Millisecond). -/
def millisecond : Int := 1000000

/-- One second in nanoseconds (Go time.Second). -/
def second : Int := 1000000000

/-- DefaultGossipConfig of vm/gossip_item.go. -/
def DefaultGossipConfig : GossipConfig where
  PushGossipPercentStake := 9/10
  PushGossipNumValidators := 100
  PushGossipNumPeers := 0
  PushGossipFrequency := 100 * millisecond
  PullGossipFrequency := 1 * second
  PushRegossipNumValidators := 10
  PushRegossipNumPeers := 0
  RegossipFrequency := 30 * second
  BloomFilterSize := 8192
  BloomFalsePositiveRate := 1/100
  BloomResetThreshold := 5/100

/-- GossipConfig.Validate of vm/gossip_item.go: the first violated
constraint's message, none when every constraint holds. -/
def Validate (c : GossipConfig) : Option String :=
  if c.PushGossipPercentStake < 0 ∨ c.PushGossipPercentStake > 1 then
    some "push gossip percent stake must be between 0 and 1"
  else if c.PushGossipNumValidators < 0 then
    some "push gossip num validators must be non-negative"
  else if c.PushGossipNumPeers < 0 then
    some "push gossip num peers must be non-negative"
  else if c.PushGossipFrequency ≤ 0 then
    some "push gossip frequency must be positive"
  else if c.PullGossipFrequency ≤ 0 then
    some "pull gossip frequency must be positive"
  else if c.PushRegossipNumValidators < 0 then
    some "push regossip num validators must be non-negative"
  else if c.PushRegossipNumPeers < 0 then
    some "push regossip num peers must be non-negative"
  else if c.RegossipFrequency ≤ 0 then
    some "regossip frequency must be positive"
  else if c.BloomFilterSize ≤ 0 then
    some "bloom filter size must be positive"
  else if c.BloomFalsePositiveRate ≤ 0 ∨ c.BloomFalsePositiveRate ≥ 1 then
    some "bloom false positive rate must be between 0 and 1"
  else if c.BloomResetThreshold ≤ 0 ∨ c.BloomResetThreshold ≥ 1 then
    some "bloom reset threshold must be between 0 and 1"
  else none

/-- TargetBlockTime of the block builder: 2 seconds, in nanoseconds. -/
def TargetBlockTime : Int := 2 * second

/-- RetryDelay of the block builder: 100 milliseconds, in nanoseconds. -/
def RetryDelay : Int := 100 * millisecond

/-- The block builder's state: the pending flag, the last build attempt's
time and parent, and (for the scheduling claims) the count of
delay-computation tasks spawned so far. Times are Int nanoseconds; the Go
zero time.Time is 0 (time.Time.IsZero), and time.Now() is never zero. -/
structure BuilderState where
  hasPendingTxs : Bool
  lastBuildTime : Int
  lastBuildParentHash : Hash
  tasksSpawned : Nat
deriving DecidableEq

/-- blockBuilder.calculateBuildingDelay: zero delay for the first-ever
build; otherwise the remaining time, never negative, until lastBuildTime
plus RetryDelay (same parent as the last attempt) or plus TargetBlockTime
(different parent). -/
def calculateBuildingDelay (lastBuildTime : Int) (lastBuildParentHash : Hash)
    (currentBlockHash : Hash) (now : Int) : Int :=
  if lastBuildTime = 0 then 0
  else
    let nextBuildTime :=
      if lastBuildParentHash = currentBlockHash then lastBuildTime + RetryDelay
      else lastBuildTime + TargetBlockTime
    let remainingDelay := nextBuildTime - now
    if remainingDelay < 0 then 0 else remainingDelay

/-- blockBuilder.signalCanBuild: checked-and-set of the pending flag
under the lock; a delay-computation task is spawned only on the
false-to-true transition. -/
def signalCanBuild (s : BuilderState) : BuilderState :=
  if s.hasPendingTxs then s
  else { s with hasPendingTxs := true, tasksSpawned := s.tasksSpawned + 1 }

/-- blockBuilder.scheduleBlockBuild, observed through how many
notifications it sends to the engine channel: none when the current-block
lookup fails, none when no transactions remain after the delay, none when
the engine channel is full (the notification is dropped), one otherwise. -/
def scheduleBlockBuild (getCurrentBlockOk needToBuild channelFree : Bool) : Nat :=
  if getCurrentBlockOk = false then 0
  else if needToBuild = false then 0
  else if channelFree then 1 else 0

/-- blockBuilder.handleBuildAttempt: records the attempt's time and
parent, clears the pending flag, then re-enters Pending via
signalCanBuild when the mempool still holds transactions. -/
def handleBuildAttempt (s : BuilderState) (parentHash : Hash) (now : Int)
    (needToBuild : Bool) : BuilderState :=
  let s1 := { s with lastBuildTime := now, lastBuildParentHash := parentHash,
                     hasPendingTxs := false }
  if needToBuild then signalCanBuild s1 else s1

/-- The VM identity state that BlockAdapter.Accept touches, together with
the builder state it must leave alone. -/
structure VMState where
  lastAccepted : ID
  preferred : ID
  builder : BuilderState
deriving DecidableEq

/-- BlockAdapter.Accept of vm/block_adapter.go: under the block-identity
lock, sets lastAccepted and preferred to the accepted block's id and
returns nil; it deliberately does not signal block building. -/
def Accept (vm : VMState) (blockId : ID) : VMState × Except String Unit :=
  ({ vm with lastAccepted := blockId, preferred := blockId }, .ok ())

/-- A builder already in Pending absorbs further signals unchanged. -/
lemma signalCanBuild_of_pending (s : BuilderState) (h : s.hasPendingTxs = true) :
    signalCanBuild s = s := by
  simp [signalCanBuild, h]

/-- Iterating signals over a Pending builder leaves it unchanged. -/
lemma signalCanBuild_iterate_pending (n : Nat) (s : BuilderState)
    (h : s.hasPendingTxs = true) : signalCanBuild^[n] s = s := by
  induction n with
  | zero => rfl
  | succ m ih =>
    rw [Function.iterate_succ_apply, signalCanBuild_of_pending s h, ih]

/-- Claim C1: calculateBuildingDelay returns 0 when no build was ever
recorded (zero lastBuildTime); on a retry against the same parent it
returns max(0, lastBuildTime + RetryDelay - now) with RetryDelay = 100 ms;
against a different parent it returns max(0, lastBuildTime +
TargetBlockTime - now) with TargetBlockTime = 2 s; the delay is never
negative. -/
theorem calculateBuildingDelay_spec (lbt now : Int) (lp cur : Hash)
    (hlbt : lbt ≠ 0) (hne : lp ≠ cur) :
    calculateBuildingDelay 0 lp cur now = 0
  ∧ calculateBuildingDelay lbt cur cur now = max 0 (lbt + RetryDelay - now)
  ∧ calculateBuildingDelay lbt lp cur now = max 0 (lbt + TargetBlockTime - now)
  ∧ RetryDelay = 100 * millisecond
  ∧ TargetBlockTime = 2 * second
  ∧ (∀ a b c d, 0 ≤ calculateBuildingDelay a b c d) := by
  refine ⟨by simp [calculateBuildingDelay], ?_, ?_, rfl, rfl, ?_⟩
  · simp only [calculateBuildingDelay, if_neg hlbt]
    split_ifs <;> omega
  · simp only [calculateBuildingDelay, if_neg hlbt, if_neg hne]
    split_ifs <;> omega
  · intro a b c d
    simp only [calculateBuildingDelay]
    split_ifs <;> omega

/-- Witness for C1 at lastBuildTime 5, now 50, distinct hashes 1 and 2. -/
theorem calculateBuildingDelay_spec_witness :
    calculateBuildingDelay 0 1 2 50 = 0
  ∧ calculateBuildingDelay 5 2 2 50 = max 0 (5 + RetryDelay - 50)
  ∧ calculateBuildingDelay 5 1 2 50 = max 0 (5 + TargetBlockTime - 50)
  ∧ RetryDelay = 100 * millisecond
  ∧ TargetBlockTime = 2 * second
  ∧ (∀ a b c d, 0 ≤ calculateBuildingDelay a b c d) :=
  calculateBuildingDelay_spec 5 50 1 2 (by decide) (by decide)

/-- Claim C5: signalCanBuild spawns a delay-computation task exactly on
the Idle-to-Pending transition; a signal arriving while already Pending is
a no-op, so any number of signals within one pending window spawn exactly
one task, and one scheduled task notifies the engine at most once. -/
theorem signalCanBuild_coalesce (s : BuilderState) (n : Nat)
    (hidle : s.hasPendingTxs = false) (hn : 1 ≤ n) :
    (signalCanBuild s).hasPendingTxs = true
  ∧ (signalCanBuild s).tasksSpawned = s.tasksSpawned + 1
  ∧ (∀ s' : BuilderState, s'.hasPendingTxs = true → signalCanBuild s' = s')
  ∧ (signalCanBuild^[n] s).hasPendingTxs = true
  ∧ (signalCanBuild^[n] s).tasksSpawned = s.tasksSpawned + 1
  ∧ (∀ a b c, scheduleBlockBuild a b c ≤ 1) := by
  have h1 : (signalCanBuild s).hasPendingTxs = true := by
    simp [signalCanBuild, hidle]
  have hiter : signalCanBuild^[n] s = signalCanBuild s := by
    obtain ⟨m, rfl⟩ : ∃ m, n = m + 1 := ⟨n - 1, by omega⟩
    rw [Function.iterate_succ_apply,
        signalCanBuild_iterate_pending m (signalCanBuild s) h1]
  refine ⟨h1, by simp [signalCanBuild, hidle], signalCanBuild_of_pending, ?_, ?_, ?_⟩
  · rw [hiter]; exact h1
  · rw [hiter]; simp [signalCanBuild, hidle]
  · decide

/-- Witness for C5: three signals from the Idle builder spawn one task. -/
theorem signalCanBuild_coalesce_witness :
    (signalCanBuild ⟨false, 0, 0, 0⟩).hasPendingTxs = true
  ∧ (signalCanBuild ⟨false, 0, 0, 0⟩).tasksSpawned
      = (⟨false, 0, 0, 0⟩ : BuilderState).tasksSpawned + 1
  ∧ (∀ s' : BuilderState, s'.hasPendingTxs = true → signalCanBuild s' = s')
  ∧ (signalCanBuild^[3] ⟨false, 0, 0, 0⟩).hasPendingTxs = true
  ∧ (signalCanBuild^[3] ⟨false, 0, 0, 0⟩).tasksSpawned
      = (⟨false, 0, 0, 0⟩ : BuilderState).tasksSpawned + 1
  ∧ (∀ a b c, scheduleBlockBuild a b c ≤ 1) :=
  signalCanBuild_coalesce ⟨false, 0, 0, 0⟩ 3 rfl (by decide)

/-- Claim C6: handleBuildAttempt records the attempt time and parent,
clears the pending flag, and re-enters Pending (spawning one task) if and
only if the mempool still holds transactions. -/
theorem handleBuildAttempt_spec (s : BuilderState) (parent : Hash) (now : Int)
    (needToBuild : Bool) :
    (handleBuildAttempt s parent now needToBuild).lastBuildTime = now
  ∧ (handleBuildAttempt s parent now needToBuild).lastBuildParentHash = parent
  ∧ (handleBuildAttempt s parent now needToBuild).hasPendingTxs = needToBuild
  ∧ (handleBuildAttempt s parent now needToBuild).tasksSpawned
      = s.tasksSpawned + (if needToBuild then 1 else 0) := by
  cases needToBuild <;> simp [handleBuildAttempt, signalCanBuild]

/-- Claim C7: Accept sets both lastAccepted and preferred to the accepted
block's id and returns success, leaving the block builder's state
entirely unchanged. -/
theorem Accept_spec (vm : VMState) (blockId : ID) :
    (Accept vm blockId).1.lastAccepted = blockId
  ∧ (Accept vm blockId).1.preferred = blockId
  ∧ (Accept vm blockId).2 = .ok ()
  ∧ (Accept vm blockId).1.builder = vm.builder :=
  ⟨rfl, rfl, rfl, rfl⟩

/-- Claim C10: GossipID is total: a Tx-tagged wrapper with a transaction
yields the transaction hash, a Block-tagged wrapper with a block yields
the block hash, and every other wrapper (nil payload for the tagged kind,
or an unknown tag) yields ids.Empty. -/
theorem GossipID_total :
    (∀ (tx : Tx) (ob : Option Block),
        (BTCGossip.mk GossipItemTypeTx (some tx) ob).GossipID = txHash tx)
  ∧ (∀ (ot : Option Tx) (b : Block),
        (BTCGossip.mk GossipItemTypeBlock ot (some b)).GossipID = blockHash b)
  ∧ (∀ ob : Option Block,
        (BTCGossip.mk GossipItemTypeTx none ob).GossipID = idsEmpty)
  ∧ (∀ ot : Option Tx,
        (BTCGossip.mk GossipItemTypeBlock ot none).GossipID = idsEmpty)
  ∧ (∀ (t : Nat) (ot : Option Tx) (ob : Option Block),
        t = GossipItemTypeTx ∨ t = GossipItemTypeBlock
          ∨ (BTCGossip.mk t ot ob).GossipID = idsEmpty) := by
  refine ⟨fun tx ob => rfl, fun ot b => rfl, fun ob => rfl, fun ot => rfl, ?_⟩
  intro t ot ob
  by_cases h1 : t = GossipItemTypeTx
  · exact Or.inl h1
  by_cases h2 : t = GossipItemTypeBlock
  · exact Or.inr (Or.inl h2)
  · exact Or.inr (Or.inr (by simp [BTCGossip.GossipID, h1, h2]))

/-- NewTxGossip of vm/gossip_wrapper.go, also the wrapper Iterate builds
for each mempool descriptor. -/
def NewTxGossip (t : Tx) : BTCGossip := ⟨GossipItemTypeTx, some t, none⟩

/-- NewBlockGossip of vm/gossip_wrapper.go. -/
def NewBlockGossip (b : Block) : BTCGossip := ⟨GossipItemTypeBlock, none, some b⟩

/-- Claim C2: marshalling a valid item succeeds and yields the one-byte
kind discriminator followed by the payload's wire encoding, and
unmarshalling that output succeeds with the same kind and the same
GossipID as the original item. -/
theorem marshal_roundtrip (tx : Tx) (blk : Block) (ot : Option Tx) (ob : Option Block) :
    MarshalGossip ⟨GossipItemTypeTx, some tx, ob⟩
      = .ok (GossipItemTypeTx :: msgTxEncode tx)
  ∧ MarshalGossip ⟨GossipItemTypeBlock, ot, some blk⟩
      = .ok (GossipItemTypeBlock :: msgBlockEncode blk)
  ∧ UnmarshalGossip (GossipItemTypeTx :: msgTxEncode tx)
      = .ok ⟨GossipItemTypeTx, some tx, none⟩
  ∧ UnmarshalGossip (GossipItemTypeBlock :: msgBlockEncode blk)
      = .ok ⟨GossipItemTypeBlock, none, some blk⟩
  ∧ (⟨GossipItemTypeTx, some tx, none⟩ : BTCGossip).GossipID
      = (⟨GossipItemTypeTx, some tx, ob⟩ : BTCGossip).GossipID
  ∧ (⟨GossipItemTypeBlock, none, some blk⟩ : BTCGossip).GossipID
      = (⟨GossipItemTypeBlock, ot, some blk⟩ : BTCGossip).GossipID :=
  ⟨rfl, rfl, rfl, rfl, rfl, rfl⟩

/-- Claim C3: Add on a transaction item: an already-known transaction is
marked in the filter and accepted without any engine submission,
whatever ProcessTransaction would have answered; a processing failure is
returned without marking the filter; a processing success marks the
filter and relays exactly the newly accepted transactions. -/
theorem Add_tx_spec (bloom : List ID) (tx : Tx) (e : String)
    (accepted : List Tx) (proc : Except String (List Tx))
    (hb : Hash → Except String Bool) (pb : Block → Except String (Bool × Bool))
    (flag : Bool) :
    Add ⟨fun _ => true, fun _ => proc, hb, pb, flag⟩ bloom (NewTxGossip tx)
      = ⟨bloomAdd bloom (NewTxGossip tx), [], [], .ok ()⟩
  ∧ Add ⟨fun _ => false, fun _ => .error e, hb, pb, flag⟩ bloom (NewTxGossip tx)
      = ⟨bloom, [], [hashToID (some (txHash tx))], .error e⟩
  ∧ Add ⟨fun _ => false, fun _ => .ok accepted, hb, pb, true⟩ bloom (NewTxGossip tx)
      = ⟨bloomAdd bloom (NewTxGossip tx), accepted,
         [hashToID (some (txHash tx))], .ok ()⟩ := by
  refine ⟨rfl, rfl, ?_⟩
  cases accepted <;> simp [Add, NewTxGossip]

/-- Claim C4: Add on a block item: an already-known block is marked in
the filter and accepted without resubmission; a block the chain does not
have is submitted to ProcessBlock, and whatever that returns — failure
included — Add marks the filter and returns success. -/
theorem Add_block_spec (bloom : List ID) (blk : Block)
    (mh : Hash → Bool) (pt : Tx → Except String (List Tx))
    (procRes : Except String (Bool × Bool)) (flag : Bool) :
    Add ⟨mh, pt, fun _ => .ok true, fun _ => procRes, flag⟩ bloom (NewBlockGossip blk)
      = ⟨bloomAdd bloom (NewBlockGossip blk), [], [], .ok ()⟩
  ∧ Add ⟨mh, pt, fun _ => .ok false, fun _ => procRes, flag⟩ bloom (NewBlockGossip blk)
      = ⟨bloomAdd bloom (NewBlockGossip blk), [],
         [hashToID (some (blockHash blk))], .ok ()⟩ := by
  refine ⟨rfl, ?_⟩
  cases procRes <;> rfl

/-- Every item the Iterate trace contains is the Tx wrapper of some
mempool transaction. -/
lemma Iterate_mem (txs : List Tx) (f : BTCGossip → Bool) :
    ∀ g ∈ Iterate txs f, ∃ u ∈ txs, g = NewTxGossip u := by
  induction txs with
  | nil => simp [Iterate]
  | cons t ts ih =>
    intro g hg
    simp only [Iterate] at hg
    by_cases hf : f (txGossip t)
    · rw [if_pos hf] at hg
      rcases List.mem_cons.mp hg with h | h
      · exact ⟨t, List.mem_cons_self t ts, h⟩
      · obtain ⟨u, hu, hgu⟩ := ih g h
        exact ⟨u, List.mem_cons_of_mem t hu, hgu⟩
    · rw [if_neg hf] at hg
      rcases List.mem_singleton.mp hg with h
      exact ⟨t, List.mem_cons_self t ts, h⟩

/-- A callback that accepts everything sees every mempool transaction. -/
lemma Iterate_all (txs : List Tx) :
    Iterate txs (fun _ => true) = txs.map NewTxGossip := by
  induction txs with
  | nil => rfl
  | cons t ts ih => simp [Iterate, ih, NewTxGossip, txGossip]

/-- Iteration stops right after the first item the callback refuses. -/
lemma Iterate_stops (l1 l2 : List Tx) (t : Tx) (f : BTCGossip → Bool)
    (hpre : ∀ u ∈ l1, f (NewTxGossip u) = true)
    (hstop : f (NewTxGossip t) = false) :
    Iterate (l1 ++ t :: l2) f = l1.map NewTxGossip ++ [NewTxGossip t] := by
  induction l1 with
  | nil =>
    simp [Iterate, txGossip, NewTxGossip] at hstop ⊢
    simp [hstop]
  | cons a as ih =>
    have ha : f (NewTxGossip a) = true := hpre a (List.mem_cons_self a as)
    have ih' := ih fun u hu => hpre u (List.mem_cons_of_mem a hu)
    simp [Iterate, txGossip, NewTxGossip] at ha ih' ⊢
    simp [ha, ih']

/-- Claim C8: Iterate visits only mempool transactions wrapped as Tx
items, never a block item; with a callback that never refuses it visits
exactly the mempool, and it stops immediately after the first item on
which the callback returns false. -/
theorem Iterate_spec (txs l1 l2 : List Tx) (t : Tx) (f : BTCGossip → Bool)
    (hpre : ∀ u ∈ l1, f (NewTxGossip u) = true)
    (hstop : f (NewTxGossip t) = false) :
    (∀ g ∈ Iterate txs f, g.ItemType = GossipItemTypeTx ∧ g.Block = none
        ∧ ∃ u ∈ txs, g = NewTxGossip u)
  ∧ Iterate txs (fun _ => true) = txs.map NewTxGossip
  ∧ Iterate (l1 ++ t :: l2) f = l1.map NewTxGossip ++ [NewTxGossip t] := by
  refine ⟨?_, Iterate_all txs, Iterate_stops l1 l2 t f hpre hstop⟩
  intro g hg
  obtain ⟨u, hu, rfl⟩ := Iterate_mem txs f g hg
  exact ⟨rfl, rfl, u, hu, rfl⟩

/-- Witness for C8: mempool of two transactions, callback refusing the
second. -/
theorem Iterate_spec_witness :
    (∀ g ∈ Iterate [[0], [1]] (fun g => decide (g.Tx = some [0])),
        g.ItemType = GossipItemTypeTx ∧ g.Block = none
        ∧ ∃ u ∈ [[0], [1]], g = NewTxGossip u)
  ∧ Iterate [[0], [1]] (fun _ => true) = List.map NewTxGossip [[0], [1]]
  ∧ Iterate ([[0]] ++ [1] :: [[2]]) (fun g => decide (g.Tx = some [0]))
      = List.map NewTxGossip [[0]] ++ [NewTxGossip [1]] :=
  Iterate_spec [[0], [1]] [[0]] [[2]] [1] (fun g => decide (g.Tx = some [0]))
    (by decide) (by decide)

set_option maxHeartbeats 2000000 in
/-- Claim C9: Validate fails exactly when some constraint is violated —
the stake fraction outside [0,1], a negative validator or peer count, a
non-positive push/pull/regossip frequency, a non-positive filter size, or
a bloom rate or reset threshold outside the open interval (0,1) — and the
default configuration validates cleanly. -/
theorem Validate_spec (c : GossipConfig) :
    ((Validate c).isSome ↔
      (c.PushGossipPercentStake < 0 ∨ c.PushGossipPercentStake > 1
      ∨ c.PushGossipNumValidators < 0 ∨ c.PushGossipNumPeers < 0
      ∨ c.PushRegossipNumValidators < 0 ∨ c.PushRegossipNumPeers < 0
      ∨ c.PushGossipFrequency ≤ 0 ∨ c.PullGossipFrequency ≤ 0
      ∨ c.RegossipFrequency ≤ 0 ∨ c.BloomFilterSize ≤ 0
      ∨ c.BloomFalsePositiveRate ≤ 0 ∨ c.BloomFalsePositiveRate ≥ 1
      ∨ c.BloomResetThreshold ≤ 0 ∨ c.BloomResetThreshold ≥ 1))
  ∧ Validate DefaultGossipConfig = none := by
  constructor
  · unfold Validate
    split_ifs <;>
      simp only [Option.isSome_some, Option.isSome_none, true_iff, false_iff] <;>
      tauto
  · norm_num [Validate, DefaultGossipConfig, millisecond, second]

end BtcVM
